import Mathlib

/-!
# Verification of the zapi send-scheduling core

A shallow embedding of the scheduling subsystem of the repository:

* `src/services/scheduler.py` — durable `ScheduledMessage` records, the
  APScheduler-backed trigger registry, restore at boot, the fire procedure
  `run_send_job`, and the operations `schedule_message_once`,
  `schedule_message_cron`, `cancel_schedule`, `pause_schedule`,
  `resume_schedule`, `update_schedule`;
* `src/services/messaging.py` — `send_bulk_by_group` and the background bulk
  dispatch `send_bulk_async` (its worker `run_bulk_send`).

Machine-level conventions of the embedding: timestamps are natural numbers
(`datetime.utcnow()` becomes an explicit `now : Nat` parameter); the database
session is a list of records, a commit is an observable event; the external
APScheduler instance is a list of registered jobs together with the documented
behaviour of `add_job` (with `replace_existing=True`), `remove_job`,
`pause_job` and `resume_job`; the external Z-API transport (the Send Executor)
is an oracle supplied as a parameter.  Python truthiness tests on optional
columns are embedded explicitly (`None`/`0`/`""` falsy).
-/

namespace Zapi

/-- `status` column of `scheduled_messages` (src/models.py line 114). -/
inductive Status
  | scheduled
  | running
  | completed
  | canceled
  | failed
  | paused
deriving DecidableEq, Repr

/-- `schedule_type` column: `once` or `cron`. -/
inductive SchedType
  | once
  | cron
deriving DecidableEq, Repr

/-- `type` column: `individual` or `group` (validated by `ScheduleSchema`). -/
inductive MsgType
  | individual
  | group
deriving DecidableEq, Repr

/-- The `ScheduledMessage` model (src/models.py lines 88-117); created/updated
timestamps are omitted (no claim mentions them). -/
structure ScheduledMessage where
  id : Nat
  job_id : String
  type : MsgType
  schedule_type : SchedType
  contact_id : Option Nat
  phone_number : Option String
  group_id : Option Nat
  message : String
  run_at : Option Nat
  cron_expression : Option String
  status : Status
  last_run_at : Option Nat
deriving DecidableEq, Repr

/-- Python truthiness of an optional integer column (`None` and `0` falsy). -/
def truthyNat : Option Nat → Bool
  | none => false
  | some n => n ≠ 0

/-- Python truthiness of an optional string column (`None` and `""` falsy). -/
def truthyStr : Option String → Bool
  | none => false
  | some s => s ≠ ""

/-! ## Cron expressions -/

/-- The five fields handed to `CronTrigger` by `_parse_cron_expression`. -/
structure CronFields where
  minute : String
  hour : String
  day : String
  month : String
  day_of_week : String
deriving DecidableEq, Repr

/-- Helper for `pySplit`: walk the character list, accumulating the current
(reversed) word, emitting it whenever a whitespace run begins or input ends. -/
def splitWSAux : List Char → List Char → List String
  | [], cur => if cur.isEmpty then [] else [String.mk cur.reverse]
  | c :: rest, cur =>
      if c.isWhitespace then
        if cur.isEmpty then splitWSAux rest []
        else String.mk cur.reverse :: splitWSAux rest []
      else splitWSAux rest (c :: cur)

/-- Python `str.split()` with no argument: split on whitespace runs, dropping
empty parts. -/
def pySplit (s : String) : List String :=
  splitWSAux s.data []

/-- `_parse_cron_expression` (src/services/scheduler.py lines 78-83):
`parts = [p.strip() for p in expr.split()]` — the per-part `strip()` is the
identity because `split()` leaves no whitespace inside a part — require
exactly five fields, else `raise ValueError`. -/
def parseCronExpression (expr : String) : Except String CronFields :=
  match pySplit expr with
  | [m, h, d, mo, dow] => .ok ⟨m, h, d, mo, dow⟩
  | _ => .error "Cron expression must have 5 fields: minute hour day month day_of_week"

/-! ## The trigger registry (external APScheduler instance)

The `BackgroundScheduler` is third-party; the embedding keeps the documented
surface the source relies on: a keyed set of jobs, `add_job` with
`replace_existing=True` upserting by id, `remove_job`/`resume_job`/`pause_job`
raising exactly when the id is absent. -/

/-- Trigger of a registered job: a `DateTrigger` or a `CronTrigger`. -/
inductive Trigger
  | date (runDate : Option Nat)
  | cron (fields : CronFields)
deriving DecidableEq, Repr

/-- One live registration, with the keyword arguments the source passes to
`scheduler.add_job`. -/
structure SchedJob where
  id : String
  trigger : Trigger
  paused : Bool
  maxInstances : Nat
  coalesce : Bool
  misfireGrace : Option Nat
deriving DecidableEq, Repr

/-- Is a job with this id registered? -/
def jobPresent (reg : List SchedJob) (j : String) : Bool :=
  reg.any (·.id = j)

/-- `add_job(..., replace_existing=True)`: drop any job with the same id,
append the new one. -/
def addJob (reg : List SchedJob) (jb : SchedJob) : List SchedJob :=
  reg.filter (·.id ≠ jb.id) ++ [jb]

/-- `remove_job` with the `JobLookupError` swallowed by the caller: erase the
job if present, no-op otherwise. -/
def eraseJob (reg : List SchedJob) (j : String) : List SchedJob :=
  reg.filter (·.id ≠ j)

/-- `pause_job` on a present job (absent raises, handled at call sites). -/
def pauseJobIn (reg : List SchedJob) (j : String) : List SchedJob :=
  reg.map fun x => if x.id = j then { x with paused := true } else x

/-- `resume_job` on a present job (absent raises, handled at call sites). -/
def resumeJobIn (reg : List SchedJob) (j : String) : List SchedJob :=
  reg.map fun x => if x.id = j then { x with paused := false } else x

/-- `_add_date_job` (src/services/scheduler.py lines 64-75): a one-shot
`DateTrigger` at `run_at`, keyed by `job_id`, `misfire_grace_time=60`,
`coalesce=True`, `max_instances=1`. -/
def addDateJob (reg : List SchedJob) (s : ScheduledMessage) : List SchedJob :=
  addJob reg
    { id := s.job_id, trigger := .date s.run_at, paused := false
      maxInstances := 1, coalesce := true, misfireGrace := some 60 }

/-- `_add_cron_job` (src/services/scheduler.py lines 86-97): parse the stored
cron expression (raising on failure, hence `Except`), register a cron job
keyed by `job_id` with `coalesce=True`, `max_instances=1`.  A `None`
expression raises in Python (`None.split()`); the embedding maps it to the
parse error. -/
def addCronJobChecked (reg : List SchedJob) (s : ScheduledMessage) :
    Except String (List SchedJob) :=
  match parseCronExpression (s.cron_expression.getD "") with
  | .error e => .error e
  | .ok f =>
      .ok (addJob reg
        { id := s.job_id, trigger := .cron f, paused := false
          maxInstances := 1, coalesce := true, misfireGrace := none })

/-! ## The database session -/

/-- `ScheduledMessage.query.get(id)`. -/
def dbGet (db : List ScheduledMessage) (i : Nat) : Option ScheduledMessage :=
  db.find? (·.id = i)

/-- Write back a mutated record (the ORM mutates the row in place; the
embedding replaces every row carrying the record's primary key). -/
def dbSet (db : List ScheduledMessage) (r : ScheduledMessage) : List ScheduledMessage :=
  db.map fun x => if x.id = r.id then r else x

/-! ## Creating schedules -/

/-- `schedule_message_once` (src/services/scheduler.py lines 158-186): build a
record with `schedule_type='once'`, `status='scheduled'`, persist it, commit,
register a date job.  The generated `uuid4().hex` and the database-assigned
primary key are passed in as `jobId` and `newId`.  Note: the source performs
no validation of `run_at` here. -/
def schedule_message_once (db : List ScheduledMessage) (reg : List SchedJob)
    (jobId : String) (newId : Nat) (ty : MsgType) (msg : String) (runAt : Nat)
    (cid : Option Nat) (pn : Option String) (gid : Option Nat) :
    List ScheduledMessage × List SchedJob × ScheduledMessage :=
  let s : ScheduledMessage :=
    { id := newId, job_id := jobId, type := ty, schedule_type := .once
      contact_id := cid, phone_number := pn, group_id := gid, message := msg
      run_at := some runAt, cron_expression := none, status := .scheduled
      last_run_at := none }
  (db ++ [s], addDateJob reg s, s)

/-- `schedule_message_cron` (src/services/scheduler.py lines 189-220):
validate the cron expression first (`ValueError` propagates, nothing
persisted), then persist the record with `status='scheduled'`, commit, and
register through `_add_cron_job` (which re-parses the same expression; a
failure there would leave the record persisted). -/
def schedule_message_cron (db : List ScheduledMessage) (reg : List SchedJob)
    (jobId : String) (newId : Nat) (ty : MsgType) (msg : String) (expr : String)
    (cid : Option Nat) (pn : Option String) (gid : Option Nat) :
    List ScheduledMessage × List SchedJob × Except String ScheduledMessage :=
  match parseCronExpression expr with
  | .error e => (db, reg, .error e)
  | .ok _ =>
      let s : ScheduledMessage :=
        { id := newId, job_id := jobId, type := ty, schedule_type := .cron
          contact_id := cid, phone_number := pn, group_id := gid, message := msg
          run_at := none, cron_expression := some expr, status := .scheduled
          last_run_at := none }
      match addCronJobChecked reg s with
      | .ok reg2 => (db ++ [s], reg2, .ok s)
      | .error e => (db ++ [s], reg, .error e)

/-! ## The Send Executor and group membership (consumed capabilities)

`MessagingService.send_to_contact` wraps the external Z-API transport and the
message-log write; the scheduling core only inspects the `success` flag of the
dictionary it returns (spec §4.4).  It is embedded as an oracle. -/

/-- A row of the `contacts` table as seen by group dispatch. -/
structure Contact where
  id : Nat
  name : String
  whatsapp_number : String
deriving DecidableEq, Repr

/-- Normalized outcome of one `send_to_contact` call. -/
structure SendResult where
  success : Bool
  error : Option String
deriving DecidableEq, Repr

/-- Oracle for the consumed capabilities: the three `send_to_contact` entry
points (by contact id, by raw phone string, by `Contact` object) and the
group-membership lookup `Group.query.get(gid).contacts.all()` (`none` when the
group row does not exist). -/
structure Messaging where
  byContactId : Nat → String → SendResult
  byPhone : String → String → SendResult
  byContact : Contact → String → SendResult
  groups : Nat → Option (List Contact)

/-- `MessagingService.send_bulk_by_group` (src/services/messaging.py lines
84-120): a missing group yields the single failure result `Group with ID ...
not found`; an empty group yields the single failure `No contacts in group`;
otherwise one `send_to_contact` result per member, in member order.  (The
`contact_name`/`contact_id` enrichment and the inter-send sleep are dropped
here: `run_send_job` reads only the `success` flags.) -/
def send_bulk_by_group (m : Messaging) (gid : Option Nat) (msg : String) :
    List SendResult :=
  match gid.bind m.groups with
  | none => [⟨false, some "Group not found"⟩]
  | some [] => [⟨false, some "No contacts in group"⟩]
  | some cs => cs.map fun c => m.byContact c msg

/-! ## The fire procedure `run_send_job` -/

/-- Observable events of a fire or of restore: commits of the mutated record,
Send Executor invocations, registry removals/additions, and the single
whole-session commit of `restore_pending_jobs`. -/
inductive JEv
  | commitRec (r : ScheduledMessage)
  | invokeSend
  | removeJob (j : String)
  | addJob (j : String)
  | commitAll
deriving DecidableEq, Repr

/-- Is an event a database commit? -/
def JEv.isCommit : JEv → Bool
  | .commitRec _ => true
  | .commitAll => true
  | _ => false

/-- Result of one fire: the mutated record, the registry, the event trace. -/
structure FireOut where
  record : ScheduledMessage
  reg : List SchedJob
  evs : List JEv
deriving DecidableEq, Repr

/-- The success flag computed inside `run_send_job` (src/services/scheduler.py
lines 126-137).  `individual` with truthy `contact_id` goes through the
contact-id path; otherwise `send_to_contact(sched.phone_number, ...)` — a
`None` phone fails inside `normalize_to_e164` and yields `success=False`.
`group` takes `all(r.get('success') for r in results ...)` over the
`send_bulk_by_group` results (each of which carries a `success` key). -/
def fireSuccess (m : Messaging) (s : ScheduledMessage) : Bool :=
  match s.type with
  | .individual =>
      if truthyNat s.contact_id then
        (m.byContactId (s.contact_id.getD 0) s.message).success
      else
        match s.phone_number with
        | some p => (m.byPhone p s.message).success
        | none => false
  | .group =>
      (send_bulk_by_group m s.group_id s.message).all (·.success)

/-- `run_send_job` (src/services/scheduler.py lines 100-155) acting on a found
record.  `raises = true` models the Send Executor raising, taking the
`except` branch.  For `once`: set `running`, commit, send, set `last_run_at`,
set `completed`/`failed` by outcome, attempt `remove_job`, commit.  For
`cron`: send, set `last_run_at`, commit, status untouched. -/
def run_send_job (m : Messaging) (raises : Bool) (now : Nat)
    (reg : List SchedJob) (s : ScheduledMessage) : FireOut :=
  let s1 := if s.schedule_type = .once then { s with status := .running } else s
  let evs1 := if s.schedule_type = .once then [JEv.commitRec s1] else []
  if raises then
    let s2 : ScheduledMessage :=
      { s1 with
        last_run_at := some now,
        status := if s.schedule_type = .once then .failed else s1.status }
    ⟨s2, reg, evs1 ++ [.invokeSend, .commitRec s2]⟩
  else
    let success := fireSuccess m s
    let s2 := { s1 with last_run_at := some now }
    if s.schedule_type = .once then
      let s3 := { s2 with status := if success then Status.completed else .failed }
      ⟨s3, eraseJob reg s.job_id,
        evs1 ++ [.invokeSend, .removeJob s.job_id, .commitRec s3]⟩
    else
      ⟨s2, reg, evs1 ++ [.invokeSend, .commitRec s2]⟩

/-! ## Restore at boot -/

/-- Accumulator of `restore_pending_jobs`' loop. -/
structure RestoreAcc where
  db : List ScheduledMessage
  reg : List SchedJob
  restored : Nat
  evs : List JEv
deriving DecidableEq, Repr

/-- The record as left by the restore loop (the `sched.status` mutations of
src/services/scheduler.py lines 45-59, with registration split off into
`restoreRegisters`). -/
def restoreRecordResult (now : Nat) (s : ScheduledMessage) : ScheduledMessage :=
  if s.status = .scheduled then
    if s.schedule_type = .once then
      match s.run_at with
      | some t => if t ≤ now then { s with status := .failed } else s
      | none => s
    else
      match s.cron_expression with
      | some e =>
          if e ≠ "" then
            match parseCronExpression e with
            | .ok _ => s
            | .error _ => { s with status := .failed }
          else s
      | none => s
  else s

/-- Does the restore loop register a timer for this record? -/
def restoreRegisters (now : Nat) (s : ScheduledMessage) : Bool :=
  if s.status = .scheduled then
    if s.schedule_type = .once then
      match s.run_at with
      | some t => decide (now < t)
      | none => false
    else
      match s.cron_expression with
      | some e => e ≠ "" && (parseCronExpression e).isOk
      | none => false
  else false

/-- One iteration of the restore loop (src/services/scheduler.py lines
45-59): only `scheduled` records are touched; a past-due `once` record is
marked `failed` and skipped; a future `once` record gets a date job; a `cron`
record with a (truthy) expression gets a cron job, the `except` branch marking
it `failed` when the expression no longer parses. -/
def restoreStep (now : Nat) (acc : RestoreAcc) (s : ScheduledMessage) : RestoreAcc :=
  if s.status = .scheduled then
    if s.schedule_type = .once then
      match s.run_at with
      | some t =>
          if t ≤ now then
            { acc with db := acc.db ++ [{ s with status := .failed }] }
          else
            { acc with
              db := acc.db ++ [s], reg := addDateJob acc.reg s,
              restored := acc.restored + 1, evs := acc.evs ++ [.addJob s.job_id] }
      | none => { acc with db := acc.db ++ [s] }
    else
      match s.cron_expression with
      | some e =>
          if e ≠ "" then
            match addCronJobChecked acc.reg s with
            | .ok reg2 =>
                { acc with
                  db := acc.db ++ [s], reg := reg2,
                  restored := acc.restored + 1, evs := acc.evs ++ [.addJob s.job_id] }
            | .error _ =>
                { acc with db := acc.db ++ [{ s with status := .failed }] }
          else { acc with db := acc.db ++ [s] }
      | none => { acc with db := acc.db ++ [s] }
  else { acc with db := acc.db ++ [s] }

/-- `restore_pending_jobs` (src/services/scheduler.py lines 39-61): iterate
over the `scheduled` records (non-`scheduled` rows pass through untouched,
mirroring the `status == 'scheduled'` query filter), then a single
`db.session.commit()`.  It never touches the Send Executor: the function takes
no `Messaging` oracle at all, as the source never calls
`get_messaging_service` here. -/
def restore_pending_jobs (db : List ScheduledMessage) (reg : List SchedJob)
    (now : Nat) : RestoreAcc :=
  let a := db.foldl (restoreStep now) ⟨[], reg, 0, []⟩
  { a with evs := a.evs ++ [.commitAll] }

/-! ## Lifecycle operations: cancel, pause, resume, update -/

/-- Result of a boolean-returning lifecycle operation. -/
structure OpOut where
  db : List ScheduledMessage
  reg : List SchedJob
  ok : Bool
deriving DecidableEq, Repr

/-- `cancel_schedule` (src/services/scheduler.py lines 296-309): unknown id
returns `False`; otherwise attempt `remove_job` (failure swallowed), set
`status='canceled'` — with no check of the current status — commit, return
`True`. -/
def cancel_schedule (db : List ScheduledMessage) (reg : List SchedJob)
    (i : Nat) : OpOut :=
  match dbGet db i with
  | none => ⟨db, reg, false⟩
  | some s =>
      let reg2 := if s.job_id ≠ "" then eraseJob reg s.job_id else reg
      ⟨dbSet db { s with status := .canceled }, reg2, true⟩

/-- `pause_schedule` (src/services/scheduler.py lines 312-330): unknown id
returns `False`; otherwise attempt `pause_job` (a missing job is tolerated),
set `status='paused'` — again with no check of the current status — commit,
return `True`. -/
def pause_schedule (db : List ScheduledMessage) (reg : List SchedJob)
    (i : Nat) : OpOut :=
  match dbGet db i with
  | none => ⟨db, reg, false⟩
  | some s =>
      let reg2 := if s.job_id ≠ "" then pauseJobIn reg s.job_id else reg
      ⟨dbSet db { s with status := .paused }, reg2, true⟩

/-- The re-add fallback of `resume_schedule` (src/services/scheduler.py lines
345-363), reached when `resume_job` raised (job absent) or when no job id is
set: re-add a cron job from its expression, or a date job when `run_at` is
strictly future; otherwise — or when the cron expression fails to parse,
which the outer `except` turns into a rollback — return `False` with nothing
changed. -/
def resumeReAdd (db : List ScheduledMessage) (reg : List SchedJob) (now : Nat)
    (s : ScheduledMessage) : OpOut :=
  if s.schedule_type = .cron ∧ truthyStr s.cron_expression then
    match addCronJobChecked reg s with
    | .ok reg2 => ⟨dbSet db { s with status := .scheduled }, reg2, true⟩
    | .error _ => ⟨db, reg, false⟩
  else if s.schedule_type = .once then
    match s.run_at with
    | some t =>
        if now < t then
          ⟨dbSet db { s with status := .scheduled }, addDateJob reg s, true⟩
        else ⟨db, reg, false⟩
    | none => ⟨db, reg, false⟩
  else ⟨db, reg, false⟩

/-- `resume_schedule` (src/services/scheduler.py lines 335-370): unknown id
returns `False`.  If the job is still registered, `resume_job` succeeds and —
with no timing re-check — the record is set back to `status='scheduled'` and
`True` is returned.  Only when the job is absent does the re-add fallback
validate the trigger. -/
def resume_schedule (db : List ScheduledMessage) (reg : List SchedJob)
    (now : Nat) (i : Nat) : OpOut :=
  match dbGet db i with
  | none => ⟨db, reg, false⟩
  | some s =>
      if s.job_id ≠ "" then
        if jobPresent reg s.job_id then
          ⟨dbSet db { s with status := .scheduled }, resumeJobIn reg s.job_id, true⟩
        else resumeReAdd db reg now s
      else resumeReAdd db reg now s

/-- Partial-update arguments of `update_schedule`.  An invalid
`schedule_type` string is ignored by the source exactly like an absent one,
so only the valid values appear; `run_at` arrives already parsed (the
string-format `ValueError` branch is upstream of everything modelled here). -/
structure UpdArgs where
  message : Option String
  schedule_type : Option SchedType
  run_at : Option Nat
  cron_expression : Option String
deriving DecidableEq, Repr

/-- Result of `update_schedule`: `notFound` (Python `None`), a raised
`ValueError` (session rolled back, nothing persisted), or the committed
record with the refreshed registry. -/
inductive UpdResult
  | notFound
  | err (msg : String)
  | ok (db : List ScheduledMessage) (reg : List SchedJob) (record : ScheduledMessage)
deriving DecidableEq, Repr

/-- The registry refresh at the end of `update_schedule` (src/services/
scheduler.py lines 276-291): always attempt to remove the old job; re-add
only when `status='scheduled'`; any failure inside (e.g. a cron parse error)
is swallowed by the surrounding `except`. -/
def updRefresh (db : List ScheduledMessage) (reg : List SchedJob)
    (s : ScheduledMessage) : UpdResult :=
  let reg1 := if s.job_id ≠ "" then eraseJob reg s.job_id else reg
  let reg2 :=
    if s.status = .scheduled then
      if s.schedule_type = .once then addDateJob reg1 s
      else
        match addCronJobChecked reg1 s with
        | .ok r => r
        | .error _ => reg1
    else reg1
  .ok (dbSet db s) reg2 s

/-- `update_schedule` (src/services/scheduler.py lines 228-293): apply the
partial fields (switching `schedule_type` clears the other mode's field),
validate — a `once` record must end with a strictly future `run_at`, a `cron`
record with a truthy expression that parses — raise `ValueError` otherwise
(nothing persisted), else commit and refresh the registry.  The status column
is never written. -/
def update_schedule (db : List ScheduledMessage) (reg : List SchedJob)
    (now : Nat) (i : Nat) (a : UpdArgs) : UpdResult :=
  match dbGet db i with
  | none => .notFound
  | some s =>
      let s1 := match a.message with
        | some msg => { s with message := msg }
        | none => s
      let s2 := match a.schedule_type with
        | some .once => { s1 with schedule_type := .once, cron_expression := none }
        | some .cron => { s1 with schedule_type := .cron, run_at := none }
        | none => s1
      if s2.schedule_type = .once then
        let s3 := match a.run_at with
          | some t => { s2 with run_at := some t }
          | none => s2
        match s3.run_at with
        | some t =>
            if t ≤ now then .err "run_at must be a future datetime for one-time schedules"
            else updRefresh db reg s3
        | none => .err "run_at must be a future datetime for one-time schedules"
      else
        match a.cron_expression with
        | some e =>
            match parseCronExpression e with
            | .error msg => .err msg
            | .ok _ =>
                let s3 := { s2 with cron_expression := some e }
                if truthyStr s3.cron_expression then updRefresh db reg s3
                else .err "cron_expression is required for cron schedules"
        | none =>
            if truthyStr s2.cron_expression then updRefresh db reg s2
            else .err "cron_expression is required for cron schedules"

/-! ## Bulk dispatch (`send_bulk_async`) -/

/-- Job-snapshot status values of the in-memory `jobs_status` map. -/
inductive BStatus
  | pending
  | running
  | completed
  | failed
deriving DecidableEq, Repr

/-- One per-target entry appended to `results`. -/
structure BulkResult where
  contact_name : String
  contact_id : Nat
  success : Bool
  error : Option String
deriving DecidableEq, Repr

/-- The `jobs_status[job_id]` snapshot (src/services/messaging.py lines
137-147). -/
structure BulkJob where
  status : BStatus
  progress : Nat
  total : Nat
  sent : Nat
  failed : Nat
  started_at : Nat
  completed_at : Option Nat
  error : Option String
  results : List BulkResult
deriving DecidableEq, Repr

/-- The snapshot as initialized when a fan-out is requested, before the
worker thread starts. -/
def initBulkJob (now : Nat) : BulkJob :=
  { status := .pending, progress := 0, total := 0, sent := 0, failed := 0,
    started_at := now, completed_at := none, error := none, results := [] }

/-- Pacing/send events of the bulk worker: one `send` per member, a `sleep`
for each `time.sleep(sleep_between_secs)`. -/
inductive BEv
  | send (cid : Nat)
  | sleep
deriving DecidableEq, Repr

/-- The send loop of `run_bulk_send` (src/services/messaging.py lines
172-196), one call per remaining member with `idx` enumerating from 1.  The
oracle returns `Except`: an exception from `send_to_contact` aborts the loop
into the `except` branch, which sets `status='failed'`, attaches the error
and sets `completed_at`.  An exhausted list sets `status='completed'` and
`completed_at`.  A sleep separates consecutive sends (`if idx < total`). -/
def bulkLoop (send : Contact → Except String SendResult) (now : Nat) :
    List Contact → Nat → Nat → BulkJob → BulkJob × List BEv
  | [], _, _, job =>
      ({ job with status := .completed, completed_at := some now }, [])
  | c :: rest, idx, total, job =>
      match send c with
      | .error e =>
          ({ job with status := .failed, error := some e, completed_at := some now },
            [.send c.id])
      | .ok r =>
          let job2 : BulkJob :=
            { job with
              progress := idx,
              sent := job.sent + (if r.success then 1 else 0),
              failed := job.failed + (if r.success then 0 else 1),
              results := job.results ++ [⟨c.name, c.id, r.success, r.error⟩] }
          let next := bulkLoop send now rest (idx + 1) total job2
          (next.1, .send c.id :: (if idx < total then [BEv.sleep] else []) ++ next.2)

/-- The worker body `run_bulk_send` of `send_bulk_async`
(src/services/messaging.py lines 149-202): mark the snapshot `running`; a
missing group fails it with an error and an early return (`total` stays 0,
`completed_at` stays unset); otherwise store `total`; an empty member list
fails it the same way; otherwise run the send loop. -/
def run_bulk_send (groups : Nat → Option (List Contact)) (gid : Nat)
    (send : Contact → Except String SendResult) (now : Nat) : BulkJob × List BEv :=
  let job := { initBulkJob now with status := BStatus.running }
  match groups gid with
  | none =>
      ({ job with status := .failed, error := some ("Group with ID not found") }, [])
  | some cs =>
      let job2 := { job with total := cs.length }
      if cs.isEmpty then
        ({ job2 with status := .failed, error := some "No contacts in group" }, [])
      else bulkLoop send now cs 1 cs.length job2

/-! ## The trigger engine's per-job admission discipline

The per-`job_id` concurrency rule is enforced by the external engine from the
`max_instances` keyword the source passes at registration.  The admission
discipline itself — a fire occurrence for a key with `max_instances` running
instances is dropped, not queued — is modelled from the spec (§4.2); what
comes from src is that every registration carries `max_instances=1`. -/

/-- A fire-lifecycle event: an occurrence arriving for a job key, or a
running invocation finishing. -/
inductive FireEv
  | arrive (j : String)
  | finish (j : String)
deriving DecidableEq, Repr

/-- `max_instances` of the registered job with the given key (an unregistered
key never fires: zero instances allowed). -/
def regMaxInst (reg : List SchedJob) (j : String) : Nat :=
  match reg.find? (·.id = j) with
  | some jb => jb.maxInstances
  | none => 0

/-- Engine admission step over the multiset of running job keys: an arriving
occurrence starts only if fewer than `maxInst j` instances of `j` are
running, and is dropped (state unchanged — never queued) otherwise; a finish
removes one running instance. -/
def engineStep (maxInst : String → Nat) (st : List String) : FireEv → List String
  | .arrive j => if st.count j < maxInst j then j :: st else st
  | .finish j => st.erase j

/-- Running instances after a sequence of fire events, starting idle. -/
def engineRun (maxInst : String → Nat) (evs : List FireEv) : List String :=
  evs.foldl (engineStep maxInst) []

/-- Does every job of the registry carry `max_instances = 1`?  (Every
`add_job` call in src — `_add_date_job` and `_add_cron_job` — passes 1.) -/
def allMaxInstOne (reg : List SchedJob) : Bool :=
  reg.all (·.maxInstances = 1)

/-! # Helper lemmas -/

/-- A malformed field count makes `_parse_cron_expression` raise. -/
theorem parseCronExpression_error (expr : String)
    (h : (pySplit expr).length ≠ 5) :
    parseCronExpression expr =
      .error "Cron expression must have 5 fields: minute hour day month day_of_week" := by
  unfold parseCronExpression
  rcases hl : pySplit expr with _ | ⟨a, _ | ⟨b, _ | ⟨c, _ | ⟨d, _ | ⟨e, _ | ⟨f, t⟩⟩⟩⟩⟩⟩ <;>
    simp_all

/-- The job just added by `add_job` is registered. -/
theorem jobPresent_addJob (reg : List SchedJob) (jb : SchedJob) :
    jobPresent (addJob reg jb) jb.id = true := by
  simp [jobPresent, addJob]

/-- After `remove_job`, the key is gone. -/
theorem jobPresent_eraseJob (reg : List SchedJob) (j : String) :
    jobPresent (eraseJob reg j) j = false := by
  simp [jobPresent, eraseJob, List.any_eq_true]

/-- `query.get` after writing back a record with the same primary key. -/
theorem dbGet_dbSet (db : List ScheduledMessage) (i : Nat)
    (s r : ScheduledMessage) (hs : dbGet db i = some s) (hid : r.id = s.id) :
    dbGet (dbSet db r) i = some r := by
  induction db with
  | nil => simp [dbGet] at hs
  | cons x xs ih =>
      unfold dbGet at hs ⊢
      unfold dbSet
      rcases hx : decide (x.id = i) with _ | _
      · have hx' : ¬ x.id = i := of_decide_eq_false hx
        rw [List.find?_cons_of_neg _ (by simpa using hx')] at hs
        have hsid : s.id = i := by
          have := List.find?_some hs
          simpa using this
        have hxr : ¬ x.id = r.id := by
          rw [hid, hsid]; exact hx'
        simp only [List.map_cons, if_neg hxr]
        rw [List.find?_cons_of_neg _ (by simpa using hx')]
        exact ih hs
      · have hx' : x.id = i := of_decide_eq_true hx
        rw [List.find?_cons_of_pos _ (by simpa using hx')] at hs
        have hxs : x = s := by simpa using hs
        have hxr : x.id = r.id := by rw [hid, ← hxs, hx']
        simp only [List.map_cons, if_pos hxr]
        rw [List.find?_cons_of_pos _ (by simp [hid, ← hxs, hx'])]

/-- One restore iteration decomposed: the record is mapped through
`restoreRecordResult`, and an `add_job` event / restored-count increment
happens exactly when `restoreRegisters` holds. -/
theorem restoreStep_spec (now : Nat) (acc : RestoreAcc) (s : ScheduledMessage) :
    (restoreStep now acc s).db = acc.db ++ [restoreRecordResult now s] ∧
    (restoreStep now acc s).evs
        = acc.evs ++ (if restoreRegisters now s then [JEv.addJob s.job_id] else []) ∧
    (restoreStep now acc s).restored
        = acc.restored + (if restoreRegisters now s then 1 else 0) := by
  by_cases hst : s.status = .scheduled
  · by_cases hty : s.schedule_type = .once
    · cases hr : s.run_at with
      | none => simp [restoreStep, restoreRecordResult, restoreRegisters, hst, hty, hr]
      | some t =>
          by_cases hle : t ≤ now
          · have hlt : ¬ now < t := by omega
            simp [restoreStep, restoreRecordResult, restoreRegisters, hst, hty, hr,
              hle, hlt]
          · have hlt : now < t := by omega
            simp [restoreStep, restoreRecordResult, restoreRegisters, hst, hty, hr,
              hle, hlt]
    · cases hc : s.cron_expression with
      | none => simp [restoreStep, restoreRecordResult, restoreRegisters, hst, hty, hc]
      | some e =>
          by_cases he : e = ""
          · simp [restoreStep, restoreRecordResult, restoreRegisters, hst, hty, hc, he]
          · cases hp : parseCronExpression e with
            | ok f =>
                simp [restoreStep, restoreRecordResult, restoreRegisters, hst, hty,
                  hc, he, addCronJobChecked, hp, Except.isOk, Except.toBool]
            | error msg =>
                simp [restoreStep, restoreRecordResult, restoreRegisters, hst, hty,
                  hc, he, addCronJobChecked, hp, Except.isOk, Except.toBool]
  · simp [restoreStep, restoreRecordResult, restoreRegisters, hst]

/-- The restore loop over a record list, for an arbitrary accumulator. -/
theorem restore_foldl_spec (now : Nat) (db : List ScheduledMessage) :
    ∀ acc : RestoreAcc,
    (db.foldl (restoreStep now) acc).db
        = acc.db ++ db.map (restoreRecordResult now) ∧
    (db.foldl (restoreStep now) acc).evs
        = acc.evs ++ (db.filter (restoreRegisters now)).map (fun s => JEv.addJob s.job_id) ∧
    (db.foldl (restoreStep now) acc).restored
        = acc.restored + (db.filter (restoreRegisters now)).length := by
  induction db with
  | nil => intro acc; simp
  | cons s rest ih =>
      intro acc
      obtain ⟨h1, h2, h3⟩ := ih (restoreStep now acc s)
      obtain ⟨g1, g2, g3⟩ := restoreStep_spec now acc s
      simp only [List.foldl_cons]
      refine ⟨?_, ?_, ?_⟩
      · rw [h1, g1]; simp
      · rw [h2, g2]
        by_cases hr : restoreRegisters now s
        · simp [hr, List.filter_cons]
        · simp [hr, List.filter_cons]
      · rw [h3, g3]
        by_cases hr : restoreRegisters now s
        · simp [hr, List.filter_cons, Nat.add_assoc, Nat.add_comm 1]
        · simp [hr, List.filter_cons]

/-- The send loop under a non-raising Send Executor: it completes, stamps
`completed_at`, leaves `total` alone, accounts every member into
`sent`/`failed`, and appends one result per member in order. -/
theorem bulkLoop_ok_spec (f : Contact → SendResult) (now : Nat) :
    ∀ (cs : List Contact) (idx total : Nat) (job : BulkJob),
    (bulkLoop (fun c => .ok (f c)) now cs idx total job).1.status = .completed ∧
    (bulkLoop (fun c => .ok (f c)) now cs idx total job).1.completed_at = some now ∧
    (bulkLoop (fun c => .ok (f c)) now cs idx total job).1.total = job.total ∧
    (bulkLoop (fun c => .ok (f c)) now cs idx total job).1.sent
        + (bulkLoop (fun c => .ok (f c)) now cs idx total job).1.failed
      = job.sent + job.failed + cs.length ∧
    (bulkLoop (fun c => .ok (f c)) now cs idx total job).1.results
      = job.results ++ cs.map (fun c => ⟨c.name, c.id, (f c).success, (f c).error⟩) := by
  intro cs
  induction cs with
  | nil => intro idx total job; simp [bulkLoop]
  | cons c rest ih =>
      intro idx total job
      simp only [bulkLoop]
      obtain ⟨i1, i2, i3, i4, i5⟩ := ih (idx + 1) total
        { job with
          progress := idx,
          sent := job.sent + (if (f c).success then 1 else 0),
          failed := job.failed + (if (f c).success then 0 else 1),
          results := job.results ++ [⟨c.name, c.id, (f c).success, (f c).error⟩] }
      refine ⟨i1, i2, i3, ?_, ?_⟩
      · rw [i4]
        by_cases hs : (f c).success <;> simp [hs] <;> omega
      · rw [i5]
        simp

/-- The pacing trace of the send loop: when `idx` and `total` are consistent
(`idx + |remaining| = total + 1`, as in every reachable call), the events are
the per-member sends interspersed with single sleeps — none after the last
member. -/
theorem bulkLoop_ok_evs (f : Contact → SendResult) (now : Nat) :
    ∀ (cs : List Contact) (idx total : Nat) (job : BulkJob),
    idx + cs.length = total + 1 →
    (bulkLoop (fun c => .ok (f c)) now cs idx total job).2
      = List.intersperse BEv.sleep (cs.map (fun c => BEv.send c.id)) := by
  intro cs
  induction cs with
  | nil => intro idx total job h; simp [bulkLoop]
  | cons c rest ih =>
      intro idx total job h
      simp only [bulkLoop]
      rw [ih (idx + 1) total _ (by simp at h ⊢; omega)]
      cases rest with
      | nil =>
          have hnl : ¬ idx < total := by simp at h; omega
          simp [hnl, List.intersperse]
      | cons c2 rest2 =>
          have hlt : idx < total := by simp at h; omega
          simp [hlt, List.intersperse]

/-! # Claims -/

/-- C4: the spec demands that `createOnce` with a `run_at` that is not
strictly future fail with a ValidationError and persist nothing.  The code
performs no timing check at all: for every `runAt` value — the function does
not even consult the current time — the record is persisted with
`status='scheduled'` and a date job is registered.  (The future-`run_at` rule
IS enforced elsewhere in the same file: `update_schedule` raises on a
non-future `run_at` and `restore_pending_jobs`/`resume_schedule` refuse
past-due `once` records, so creation is the slip.) -/
theorem c4_schedule_once_never_validates_run_at
    (db : List ScheduledMessage) (reg : List SchedJob) (jobId : String)
    (newId : Nat) (ty : MsgType) (msg : String) (runAt : Nat)
    (cid : Option Nat) (pn : Option String) (gid : Option Nat) :
    (schedule_message_once db reg jobId newId ty msg runAt cid pn gid).2.2.status
        = .scheduled ∧
    (schedule_message_once db reg jobId newId ty msg runAt cid pn gid).2.2.run_at
        = some runAt ∧
    (schedule_message_once db reg jobId newId ty msg runAt cid pn gid).2.2
        ∈ (schedule_message_once db reg jobId newId ty msg runAt cid pn gid).1 ∧
    jobPresent (schedule_message_once db reg jobId newId ty msg runAt cid pn gid).2.1
        jobId = true := by
  refine ⟨rfl, rfl, ?_, ?_⟩
  · simp [schedule_message_once]
  · simpa using jobPresent_addJob reg
      { id := jobId, trigger := .date (some runAt), paused := false,
        maxInstances := 1, coalesce := true, misfireGrace := some 60 }

/-- C5: `createCron` with the five-field expression `*/5 * * * *` succeeds
and persists a `scheduled` record with a live cron registration; with
`*/5 * *` — and with any expression whose whitespace-separated field count is
not five — it raises the `ValueError` before persisting anything. -/
theorem c5_cron_field_count_validation
    (db : List ScheduledMessage) (reg : List SchedJob) (jobId : String)
    (newId : Nat) (ty : MsgType) (msg : String)
    (cid : Option Nat) (pn : Option String) (gid : Option Nat) :
    ((schedule_message_cron db reg jobId newId ty msg "*/5 * * * *" cid pn gid).2.2
        = .ok { id := newId, job_id := jobId, type := ty, schedule_type := .cron,
                contact_id := cid, phone_number := pn, group_id := gid,
                message := msg, run_at := none,
                cron_expression := some "*/5 * * * *", status := .scheduled,
                last_run_at := none } ∧
     (schedule_message_cron db reg jobId newId ty msg "*/5 * * * *" cid pn gid).1
        = db ++ [{ id := newId, job_id := jobId, type := ty, schedule_type := .cron,
                   contact_id := cid, phone_number := pn, group_id := gid,
                   message := msg, run_at := none,
                   cron_expression := some "*/5 * * * *", status := .scheduled,
                   last_run_at := none }] ∧
     jobPresent
        (schedule_message_cron db reg jobId newId ty msg "*/5 * * * *" cid pn gid).2.1
        jobId = true) ∧
    ((schedule_message_cron db reg jobId newId ty msg "*/5 * *" cid pn gid).2.2.isOk
        = false ∧
     (schedule_message_cron db reg jobId newId ty msg "*/5 * *" cid pn gid).1 = db ∧
     (schedule_message_cron db reg jobId newId ty msg "*/5 * *" cid pn gid).2.1 = reg) ∧
    (∀ expr : String, (pySplit expr).length ≠ 5 →
     (schedule_message_cron db reg jobId newId ty msg expr cid pn gid).2.2.isOk
        = false ∧
     (schedule_message_cron db reg jobId newId ty msg expr cid pn gid).1 = db ∧
     (schedule_message_cron db reg jobId newId ty msg expr cid pn gid).2.1 = reg) := by
  refine ⟨⟨rfl, rfl, ?_⟩, ⟨rfl, rfl, rfl⟩, ?_⟩
  · show jobPresent (addJob reg _) jobId = true
    simpa using jobPresent_addJob reg _
  · intro expr h
    have he := parseCronExpression_error expr h
    simp [schedule_message_cron, he, Except.isOk, Except.toBool]

/-- The claimed behaviour of one fire of `run_send_job` on a `scheduled`
record when the Send Executor returns (does not raise): a `once` record
passes through `running` (first commit), the Executor is invoked, the final
status is `completed` exactly when the send succeeded, `last_run_at` is set,
the final state is committed and the timer is removed; a `cron` record gets
no `running` transition, keeps `status='scheduled'` and its registration; and
for a `group` record the computed success flag requires every member-send
result to report success. -/
def FireClaim (m : Messaging) (now : Nat) (reg : List SchedJob)
    (s : ScheduledMessage) : Prop :=
  (s.schedule_type = .once →
    (run_send_job m false now reg s).record.status
        = (if fireSuccess m s then Status.completed else .failed) ∧
    (run_send_job m false now reg s).record.last_run_at = some now ∧
    (run_send_job m false now reg s).evs
        = [.commitRec { s with status := .running }, .invokeSend,
           .removeJob s.job_id,
           .commitRec (run_send_job m false now reg s).record] ∧
    jobPresent (run_send_job m false now reg s).reg s.job_id = false) ∧
  (s.schedule_type = .cron →
    (run_send_job m false now reg s).record.status = .scheduled ∧
    (run_send_job m false now reg s).record.last_run_at = some now ∧
    (run_send_job m false now reg s).reg = reg ∧
    (run_send_job m false now reg s).evs
        = [.invokeSend, .commitRec (run_send_job m false now reg s).record]) ∧
  (s.type = .group →
    fireSuccess m s = (send_bulk_by_group m s.group_id s.message).all (·.success)) ∧
  (∀ g cs, s.type = .group → s.group_id = some g → m.groups g = some cs →
    fireSuccess m s = true → ∀ c ∈ cs, (m.byContact c s.message).success = true)

/-- C1: the execution procedure on fire behaves as specified for `once` and
`cron` records, and a `group` fire is successful only if every member-send
result reports success. -/
theorem c1_run_send_job_fire (m : Messaging) (now : Nat) (reg : List SchedJob)
    (s : ScheduledMessage) (h : s.status = .scheduled) : FireClaim m now reg s := by
  refine ⟨?_, ?_, ?_, ?_⟩
  · intro ho
    refine ⟨by simp [run_send_job, ho], by simp [run_send_job, ho], ?_, ?_⟩
    · simp [run_send_job, ho]
    · simp only [run_send_job, ho, if_pos]
      simpa using jobPresent_eraseJob reg s.job_id
  · intro hc
    have ho : ¬ s.schedule_type = .once := by simp [hc]
    refine ⟨?_, by simp [run_send_job, ho], by simp [run_send_job, ho],
      by simp [run_send_job, ho]⟩
    simp [run_send_job, ho, h]
  · intro hg
    simp [fireSuccess, hg]
  · intro g cs hg hgid hgroups hsucc c hc
    simp only [fireSuccess, hg, send_bulk_by_group, hgid, Option.some_bind,
      hgroups] at hsucc
    cases cs with
    | nil => simp at hc
    | cons a l =>
        simp only [List.all_eq_true, List.mem_map] at hsucc
        exact hsucc _ ⟨c, hc, rfl⟩

/-- Concrete Send Executor oracle for witnesses: every send succeeds; group 7
has one member. -/
def mEx : Messaging :=
  { byContactId := fun _ _ => ⟨true, none⟩,
    byPhone := fun _ _ => ⟨true, none⟩,
    byContact := fun _ _ => ⟨true, none⟩,
    groups := fun g => if g = 7 then some [⟨1, "ana", "+5511999"⟩] else none }

/-- Concrete `once` record in `scheduled` status. -/
def sEx : ScheduledMessage :=
  { id := 1, job_id := "j1", type := .individual, schedule_type := .once,
    contact_id := some 1, phone_number := none, group_id := none,
    message := "hi", run_at := some 20, cron_expression := none,
    status := .scheduled, last_run_at := none }

/-- C1 witness: the fire claim at a concrete scheduled record. -/
theorem c1_witness : sEx.status = .scheduled ∧ FireClaim mEx 30 [] sEx :=
  ⟨rfl, c1_run_send_job_fire mEx 30 [] sEx rfl⟩

/-- The claimed behaviour of `restore_pending_jobs`: every record passes
through `restoreRecordResult`, which fixes non-`scheduled` records and marks
past-due `scheduled` `once` records `failed` without registration; every
`scheduled` `cron` record is re-registered; the event trace holds exactly the
registrations of `restoreRegisters`-eligible records followed by a single
commit; the Send Executor is never invoked. -/
def RestoreClaim (db : List ScheduledMessage) (reg : List SchedJob) (now : Nat) : Prop :=
  (restore_pending_jobs db reg now).db = db.map (restoreRecordResult now) ∧
  (∀ s : ScheduledMessage, s.status ≠ .scheduled →
      restoreRecordResult now s = s ∧ restoreRegisters now s = false) ∧
  (∀ (s : ScheduledMessage) (t : Nat), s.status = .scheduled →
      s.schedule_type = .once → s.run_at = some t → t ≤ now →
      restoreRecordResult now s = { s with status := .failed } ∧
      restoreRegisters now s = false) ∧
  (∀ s ∈ db, s.status = .scheduled → s.schedule_type = .cron →
      restoreRegisters now s = true ∧ restoreRecordResult now s = s) ∧
  (restore_pending_jobs db reg now).evs
      = (db.filter (restoreRegisters now)).map (fun s => JEv.addJob s.job_id)
        ++ [.commitAll] ∧
  (restore_pending_jobs db reg now).evs.filter (fun e => e.isCommit)
      = [.commitAll] ∧
  JEv.invokeSend ∉ (restore_pending_jobs db reg now).evs ∧
  (restore_pending_jobs db reg now).restored
      = (db.filter (restoreRegisters now)).length

/-- C2: at boot, restore touches exactly the `scheduled` records, fails
past-due `once` records without executing or registering them, re-registers
every `cron` record (whose persisted expression is well-formed, as creation
and update guarantee), and commits once.  The hypothesis `H` states that
well-formedness invariant of the store. -/
theorem c2_restore_pending_jobs (db : List ScheduledMessage) (reg : List SchedJob)
    (now : Nat)
    (H : ∀ s ∈ db, s.status = .scheduled → s.schedule_type = .cron →
        truthyStr s.cron_expression = true ∧
        (parseCronExpression (s.cron_expression.getD "")).isOk = true) :
    RestoreClaim db reg now := by
  obtain ⟨h1, h2, h3⟩ := restore_foldl_spec now db ⟨[], reg, 0, []⟩
  have hdb : (restore_pending_jobs db reg now).db = db.map (restoreRecordResult now) := by
    simpa [restore_pending_jobs] using h1
  have hevs : (restore_pending_jobs db reg now).evs
      = (db.filter (restoreRegisters now)).map (fun s => JEv.addJob s.job_id)
        ++ [.commitAll] := by
    simpa [restore_pending_jobs] using h2
  refine ⟨hdb, ?_, ?_, ?_, hevs, ?_, ?_, ?_⟩
  · intro s hns
    simp [restoreRecordResult, restoreRegisters, hns]
  · intro s t hst hty hr hle
    have hlt : ¬ now < t := by omega
    simp [restoreRecordResult, restoreRegisters, hst, hty, hr, hle, hlt]
  · intro s hmem hst hty
    obtain ⟨htr, hok⟩ := H s hmem hst hty
    have hto : ¬ s.schedule_type = .once := by simp [hty]
    cases hc : s.cron_expression with
    | none => rw [hc] at htr; simp [truthyStr] at htr
    | some e =>
        rw [hc] at htr hok
        have he : e ≠ "" := by simpa [truthyStr] using htr
        cases hp : parseCronExpression e with
        | ok f =>
            simp [restoreRegisters, restoreRecordResult, hst, hto, hc, he, hp,
              Except.isOk, Except.toBool]
        | error msg =>
            rw [Option.getD_some, hp] at hok
            simp [Except.isOk, Except.toBool] at hok
  · rw [hevs]
    rw [List.filter_append]
    have : (List.filter (fun e => e.isCommit)
        ((db.filter (restoreRegisters now)).map (fun s => JEv.addJob s.job_id))) = [] := by
      simp only [List.filter_eq_nil_iff, List.mem_map, List.mem_filter]
      rintro a ⟨s2, ⟨hs2, hreg⟩, rfl⟩
      simp [JEv.isCommit]
    rw [this]
    simp [JEv.isCommit]
  · rw [hevs]
    simp
  · simpa [restore_pending_jobs] using h3

/-- Concrete store for the C2 witness: a past-due `once`, a future `once`, a
`cron` with a five-field expression, and a `completed` record. -/
def dbEx : List ScheduledMessage :=
  [{ id := 1, job_id := "ja", type := .individual, schedule_type := .once,
     contact_id := some 1, phone_number := none, group_id := none,
     message := "a", run_at := some 5, cron_expression := none,
     status := .scheduled, last_run_at := none },
   { id := 2, job_id := "jb", type := .individual, schedule_type := .once,
     contact_id := some 1, phone_number := none, group_id := none,
     message := "b", run_at := some 99, cron_expression := none,
     status := .scheduled, last_run_at := none },
   { id := 3, job_id := "jc", type := .group, schedule_type := .cron,
     contact_id := none, phone_number := none, group_id := some 7,
     message := "c", run_at := none, cron_expression := some "0 9 * * *",
     status := .scheduled, last_run_at := none },
   { id := 4, job_id := "jd", type := .individual, schedule_type := .once,
     contact_id := some 1, phone_number := none, group_id := none,
     message := "d", run_at := some 5, cron_expression := none,
     status := .completed, last_run_at := some 5 }]

/-- C2 witness: the restore claim at the concrete store, at time 10. -/
theorem c2_witness :
    (∀ s ∈ dbEx, s.status = .scheduled → s.schedule_type = .cron →
        truthyStr s.cron_expression = true ∧
        (parseCronExpression (s.cron_expression.getD "")).isOk = true) ∧
    RestoreClaim dbEx [] 10 :=
  ⟨by decide, c2_restore_pending_jobs dbEx [] 10 (by decide)⟩

/-- The claimed completion shape of a bulk dispatch over a known non-empty
group under a non-raising Send Executor. -/
def BulkClaim (groups : Nat → Option (List Contact)) (gid : Nat)
    (f : Contact → SendResult) (now : Nat) (cs : List Contact) : Prop :=
  (run_bulk_send groups gid (fun c => .ok (f c)) now).1.total = cs.length ∧
  (run_bulk_send groups gid (fun c => .ok (f c)) now).1.sent
      + (run_bulk_send groups gid (fun c => .ok (f c)) now).1.failed = cs.length ∧
  (run_bulk_send groups gid (fun c => .ok (f c)) now).1.results.length = cs.length ∧
  (run_bulk_send groups gid (fun c => .ok (f c)) now).1.results.map (·.contact_id)
      = cs.map (·.id) ∧
  (run_bulk_send groups gid (fun c => .ok (f c)) now).1.status = .completed ∧
  (run_bulk_send groups gid (fun c => .ok (f c)) now).1.completed_at = some now ∧
  (run_bulk_send groups gid (fun c => .ok (f c)) now).2
      = List.intersperse BEv.sleep (cs.map (fun c => BEv.send c.id))

/-- C8: a bulk dispatch over a group with `N ≥ 1` members sets `total = N`,
finishes with `sent + failed = N`, produces exactly `N` per-target results in
member order, ends `completed` with `completed_at` set, and sleeps exactly
between consecutive members (never after the last). -/
theorem c8_bulk_dispatch (groups : Nat → Option (List Contact)) (gid : Nat)
    (f : Contact → SendResult) (now : Nat) (cs : List Contact)
    (hg : groups gid = some cs) (hne : cs ≠ []) : BulkClaim groups gid f now cs := by
  have hemp : cs.isEmpty = false := by simpa [List.isEmpty_iff] using hne
  obtain ⟨s1, s2, s3, s4, s5⟩ := bulkLoop_ok_spec f now cs 1 cs.length
    { initBulkJob now with status := BStatus.running, total := cs.length }
  have hevs := bulkLoop_ok_evs f now cs 1 cs.length
    { initBulkJob now with status := BStatus.running, total := cs.length }
    (by omega)
  refine ⟨?_, ?_, ?_, ?_, ?_, ?_, ?_⟩ <;>
    simp only [run_bulk_send, hg, hemp, Bool.false_eq_true, if_false]
  · simpa [initBulkJob] using s3
  · simpa [initBulkJob] using s4
  · rw [s5]; simp [initBulkJob]
  · rw [s5]; simp [initBulkJob, List.map_map]
  · exact s1
  · exact s2
  · exact hevs

/-- Three concrete group members for the C8 witness. -/
def csEx : List Contact :=
  [⟨1, "ana", "+5511000000001"⟩, ⟨2, "bia", "+5511000000002"⟩,
   ⟨3, "caio", "+5511000000003"⟩]

/-- C8 witness: the bulk claim over the concrete three-member group, with a
Send Executor that succeeds for the first two members and fails the third. -/
theorem c8_witness :
    ((fun g => if g = 7 then some csEx else none) 7 = some csEx) ∧ csEx ≠ [] ∧
    BulkClaim (fun g => if g = 7 then some csEx else none) 7
      (fun c => ⟨c.id ≠ 3, none⟩) 10 csEx :=
  ⟨rfl, by decide,
    c8_bulk_dispatch (fun g => if g = 7 then some csEx else none) 7
      (fun c => ⟨c.id ≠ 3, none⟩) 10 csEx rfl (by decide)⟩

/-- C10: a bulk dispatch for a missing or empty group yields a `failed`
snapshot with the error set and `total = 0` whose `completed_at` stays unset,
whereas an uncaught failure during iteration (the Send Executor raising)
yields a `failed` snapshot with `completed_at` set. -/
theorem c10_bulk_failure_snapshots (groups : Nat → Option (List Contact))
    (gid : Nat) (send : Contact → Except String SendResult) (now : Nat)
    (c : Contact) (e : String) :
    (groups gid = none →
      (run_bulk_send groups gid send now).1.status = .failed ∧
      (run_bulk_send groups gid send now).1.error.isSome = true ∧
      (run_bulk_send groups gid send now).1.total = 0 ∧
      (run_bulk_send groups gid send now).1.completed_at = none) ∧
    (groups gid = some [] →
      (run_bulk_send groups gid send now).1.status = .failed ∧
      (run_bulk_send groups gid send now).1.error.isSome = true ∧
      (run_bulk_send groups gid send now).1.total = 0 ∧
      (run_bulk_send groups gid send now).1.completed_at = none) ∧
    ((run_bulk_send (fun _ => some [c]) gid (fun _ => .error e) now).1.status
        = .failed ∧
     (run_bulk_send (fun _ => some [c]) gid (fun _ => .error e) now).1.error
        = some e ∧
     (run_bulk_send (fun _ => some [c]) gid (fun _ => .error e) now).1.completed_at
        = some now) := by
  refine ⟨?_, ?_, ?_⟩
  · intro h
    simp [run_bulk_send, h, initBulkJob]
  · intro h
    simp [run_bulk_send, h, initBulkJob]
  · simp [run_bulk_send, bulkLoop, initBulkJob]

/-- C10 witness: the missing-group and empty-group clauses at concrete
inputs. -/
theorem c10_witness :
    ((fun _ : Nat => (none : Option (List Contact))) 3 = none ∧
     (run_bulk_send (fun _ => none) 3 (fun _ => .ok ⟨true, none⟩) 10).1.status
        = .failed ∧
     (run_bulk_send (fun _ => none) 3 (fun _ => .ok ⟨true, none⟩) 10).1.error.isSome
        = true ∧
     (run_bulk_send (fun _ => none) 3 (fun _ => .ok ⟨true, none⟩) 10).1.total = 0 ∧
     (run_bulk_send (fun _ => none) 3 (fun _ => .ok ⟨true, none⟩) 10).1.completed_at
        = none) ∧
    ((fun _ : Nat => some ([] : List Contact)) 4 = some [] ∧
     (run_bulk_send (fun _ => some []) 4 (fun _ => .ok ⟨true, none⟩) 10).1.status
        = .failed ∧
     (run_bulk_send (fun _ => some []) 4 (fun _ => .ok ⟨true, none⟩) 10).1.error.isSome
        = true ∧
     (run_bulk_send (fun _ => some []) 4 (fun _ => .ok ⟨true, none⟩) 10).1.total = 0 ∧
     (run_bulk_send (fun _ => some []) 4 (fun _ => .ok ⟨true, none⟩) 10).1.completed_at
        = none) :=
  ⟨⟨rfl, (c10_bulk_failure_snapshots (fun _ => none) 3 (fun _ => .ok ⟨true, none⟩)
      10 ⟨1, "x", "+55"⟩ "err").1 rfl⟩,
   ⟨rfl, (c10_bulk_failure_snapshots (fun _ => some []) 4 (fun _ => .ok ⟨true, none⟩)
      10 ⟨1, "x", "+55"⟩ "err").2.1 rfl⟩⟩

/-- Concrete scheduled record used by the C6 theorems. -/
def rec6 : ScheduledMessage :=
  { id := 1, job_id := "j6", type := .individual, schedule_type := .once,
    contact_id := some 1, phone_number := none, group_id := none,
    message := "x", run_at := some 50, cron_expression := none,
    status := .scheduled, last_run_at := none }

/-- C6 counterexample: the claim says the second of two successive `cancel`
calls on an existing id returns `false`.  It returns `True`: cancellation is
a status change, the row is still found by `query.get`, and
`cancel_schedule` has no not-already-canceled check. -/
theorem c6_counterexample :
    (cancel_schedule [rec6] [] 1).ok = true ∧
    (cancel_schedule (cancel_schedule [rec6] [] 1).db
        (cancel_schedule [rec6] [] 1).reg 1).ok = true := by decide

/-- The amended double-cancel behaviour: the first call succeeds and sets
`canceled`; the second call also returns `True` without raising, leaving the
status `canceled` (cancel is idempotent); `False` is returned only for an id
with no record. -/
def CancelTwiceClaim (db : List ScheduledMessage) (reg : List SchedJob)
    (i : Nat) (s : ScheduledMessage) : Prop :=
  (cancel_schedule db reg i).ok = true ∧
  dbGet (cancel_schedule db reg i).db i = some { s with status := .canceled } ∧
  (cancel_schedule (cancel_schedule db reg i).db (cancel_schedule db reg i).reg i).ok
      = true ∧
  dbGet (cancel_schedule (cancel_schedule db reg i).db
      (cancel_schedule db reg i).reg i).db i = some { s with status := .canceled } ∧
  (∀ (db2 : List ScheduledMessage) (reg2 : List SchedJob),
      dbGet db2 i = none → (cancel_schedule db2 reg2 i).ok = false)

/-- One `cancel_schedule` call on a found record: success, and the row is
rewritten to `canceled`. -/
theorem cancel_schedule_found (db : List ScheduledMessage) (reg : List SchedJob)
    (i : Nat) (s : ScheduledMessage) (hs : dbGet db i = some s) :
    (cancel_schedule db reg i).ok = true ∧
    dbGet (cancel_schedule db reg i).db i = some { s with status := .canceled } := by
  constructor
  · simp [cancel_schedule, hs]
  · simp only [cancel_schedule, hs]
    exact dbGet_dbSet db i s _ hs rfl

/-- C6 (amended): double cancellation is an idempotent success, not a
NotFound. -/
theorem c6_cancel_twice (db : List ScheduledMessage) (reg : List SchedJob)
    (i : Nat) (s : ScheduledMessage) (hs : dbGet db i = some s) :
    CancelTwiceClaim db reg i s := by
  obtain ⟨a1, a2⟩ := cancel_schedule_found db reg i s hs
  obtain ⟨b1, b2⟩ := cancel_schedule_found (cancel_schedule db reg i).db
    (cancel_schedule db reg i).reg i _ a2
  refine ⟨a1, a2, b1, ?_, ?_⟩
  · simpa using b2
  · intro db2 reg2 hn
    simp [cancel_schedule, hn]

/-- C6 witness: the amended claim at the concrete record. -/
theorem c6_witness : dbGet [rec6] 1 = some rec6 ∧ CancelTwiceClaim [rec6] [] 1 rec6 :=
  ⟨rfl, c6_cancel_twice [rec6] [] 1 rec6 rfl⟩

/-- Concrete paused expired `once` record and its still-registered (paused)
job, for the C7 theorems. -/
def rec7 : ScheduledMessage :=
  { id := 1, job_id := "j7", type := .individual, schedule_type := .once,
    contact_id := some 1, phone_number := none, group_id := none,
    message := "x", run_at := some 5, cron_expression := none,
    status := .paused, last_run_at := none }

/-- The registry still holding `rec7`'s paused date job. -/
def reg7 : List SchedJob :=
  [{ id := "j7", trigger := .date (some 5), paused := true,
     maxInstances := 1, coalesce := true, misfireGrace := some 60 }]

/-- C7 counterexample: the claim says resume on a `once` record whose
`run_at` has elapsed returns failure and leaves the status unchanged.  When
the paused job is still present in the live scheduler, `resume_job` succeeds
and the code sets `status='scheduled'` and returns `True` with no timing
re-check: at time 10, `rec7` (with `run_at = 5`, elapsed) is resumed. -/
theorem c7_counterexample :
    (resume_schedule [rec7] reg7 10 1).ok = true ∧
    dbGet (resume_schedule [rec7] reg7 10 1).db 1
      = some { rec7 with status := .scheduled } := by decide

/-- The amended resume-of-expired behaviour: the refusal only happens when
the job is no longer present in the live scheduler (then: `False`, nothing
changed); when the job is still registered, resume succeeds and re-schedules
the record despite the elapsed `run_at`. -/
def ResumeExpiredClaim (db : List ScheduledMessage) (reg : List SchedJob)
    (now i : Nat) (s : ScheduledMessage) : Prop :=
  (jobPresent reg s.job_id = false →
    (resume_schedule db reg now i).ok = false ∧
    (resume_schedule db reg now i).db = db ∧
    (resume_schedule db reg now i).reg = reg) ∧
  (s.job_id ≠ "" → jobPresent reg s.job_id = true →
    (resume_schedule db reg now i).ok = true ∧
    dbGet (resume_schedule db reg now i).db i = some { s with status := .scheduled })

/-- C7 (amended): resuming a `once` record with elapsed `run_at` fails and
changes nothing exactly when its job is absent from the scheduler; with the
job still present it silently re-schedules. -/
theorem c7_resume_expired (db : List ScheduledMessage) (reg : List SchedJob)
    (now i : Nat) (s : ScheduledMessage) (hs : dbGet db i = some s)
    (hty : s.schedule_type = .once) (hr : ∀ t, s.run_at = some t → t ≤ now) :
    ResumeExpiredClaim db reg now i s := by
  constructor
  · intro hnp
    have hre : resumeReAdd db reg now s = ⟨db, reg, false⟩ := by
      have hnc : ¬ (s.schedule_type = .cron ∧ truthyStr s.cron_expression = true) := by
        simp [hty]
      cases hrun : s.run_at with
      | none => simp [resumeReAdd, hty, hrun, hnc]
      | some t =>
          have h1 := hr t hrun
          have h2 : ¬ now < t := by omega
          simp [resumeReAdd, hty, hrun, hnc, h2]
    by_cases hj : s.job_id = ""
    · simp [resume_schedule, hs, hj, hre]
    · simp [resume_schedule, hs, hj, hnp, hre]
  · intro hj hp
    refine ⟨by simp [resume_schedule, hs, hj, hp], ?_⟩
    simp only [resume_schedule, hs, hj, hp, ne_eq, not_false_eq_true, if_true, if_pos]
    exact dbGet_dbSet db i s _ hs rfl

/-- C7 witness: the amended claim at the concrete expired record, with the
job absent from the scheduler (the refusal branch). -/
theorem c7_witness :
    dbGet [rec7] 1 = some rec7 ∧ rec7.schedule_type = .once ∧
    (∀ t, rec7.run_at = some t → t ≤ 10) ∧ ResumeExpiredClaim [rec7] [] 10 1 rec7 :=
  ⟨rfl, rfl, by intro t ht; simp [rec7] at ht; omega,
    c7_resume_expired [rec7] [] 10 1 rec7 rfl rfl
      (by intro t ht; simp [rec7] at ht; omega)⟩

/-- `resumeReAdd` either re-schedules (status `scheduled`, returns `True`) or
changes nothing and returns `False`. -/
theorem resumeReAdd_cases (db : List ScheduledMessage) (reg : List SchedJob)
    (now : Nat) (s : ScheduledMessage) :
    (∃ reg2, resumeReAdd db reg now s
        = ⟨dbSet db { s with status := .scheduled }, reg2, true⟩) ∨
    resumeReAdd db reg now s = ⟨db, reg, false⟩ := by
  unfold resumeReAdd
  by_cases h1 : s.schedule_type = .cron ∧ truthyStr s.cron_expression = true
  · rw [if_pos h1]
    cases h : addCronJobChecked reg s with
    | ok r2 => exact .inl ⟨r2, rfl⟩
    | error m => exact .inr rfl
  · rw [if_neg h1]
    by_cases h2 : s.schedule_type = .once
    · rw [if_pos h2]
      cases h3 : s.run_at with
      | none => exact .inr rfl
      | some t =>
          by_cases h4 : now < t
          · exact .inl ⟨addDateJob reg s, by simp [h4]⟩
          · exact .inr (by simp [h4])
    · rw [if_neg h2]; exact .inr rfl

/-- `resume_schedule` on a found record either re-schedules or changes
nothing and returns `False`. -/
theorem resume_schedule_cases (db : List ScheduledMessage) (reg : List SchedJob)
    (now i : Nat) (s : ScheduledMessage) (hs : dbGet db i = some s) :
    (∃ reg2, resume_schedule db reg now i
        = ⟨dbSet db { s with status := .scheduled }, reg2, true⟩) ∨
    resume_schedule db reg now i = ⟨db, reg, false⟩ := by
  unfold resume_schedule
  simp only [hs]
  by_cases hj : s.job_id = ""
  · rw [if_neg (by simp [hj])]
    exact resumeReAdd_cases db reg now s
  · rw [if_pos hj]
    by_cases hp : jobPresent reg s.job_id = true
    · rw [if_pos hp]; exact .inl ⟨resumeJobIn reg s.job_id, rfl⟩
    · rw [if_neg hp]; exact resumeReAdd_cases db reg now s

/-- `updRefresh` only ever returns `.ok` on the record it is handed. -/
theorem updRefresh_ok (db db2 : List ScheduledMessage) (reg reg2 : List SchedJob)
    (x r : ScheduledMessage) (h : updRefresh db reg x = .ok db2 reg2 r) : r = x := by
  unfold updRefresh at h
  cases h
  rfl

/-- `update_schedule` never writes the status column: a successful update
returns a record carrying the status it found. -/
theorem update_schedule_status (db db2 : List ScheduledMessage)
    (reg reg2 : List SchedJob) (now i : Nat) (a : UpdArgs) (s r : ScheduledMessage)
    (hs : dbGet db i = some s)
    (h : update_schedule db reg now i a = .ok db2 reg2 r) : r.status = s.status := by
  unfold update_schedule at h
  rw [hs] at h
  simp only at h
  repeat' split at h
  all_goals
    first
      | rw [updRefresh_ok _ _ _ _ _ _ h]
      | cases h


/-- Concrete completed `once` record for the C3 theorems. -/
def rec3 : ScheduledMessage :=
  { id := 1, job_id := "j3", type := .individual, schedule_type := .once,
    contact_id := some 1, phone_number := none, group_id := none,
    message := "x", run_at := some 5, cron_expression := none,
    status := .completed, last_run_at := some 5 }

/-- C3 counterexample: the claim says that once a `once` record is
`completed` no operation changes its status.  `pause_schedule` has no status
guard: on the completed record `rec3` it succeeds and rewrites the status to
`paused` — a transition outside every claimed sequence. -/
theorem c3_counterexample :
    rec3.status = .completed ∧
    (pause_schedule [rec3] [] 1).ok = true ∧
    dbGet (pause_schedule [rec3] [] 1).db 1 = some { rec3 with status := .paused } := by
  decide

/-- The amended status discipline: the operations do not inspect the current
status.  On any found record, `cancel` sets `canceled` and `pause` sets
`paused` (from any prior status, the claimed terminal ones included); a
successful `resume` sets `scheduled` and a failed one changes nothing;
`update` never writes the status; a fire ends a `once` record in `completed`
or `failed` and leaves a `cron` record's status untouched. -/
def LifecycleClaim (db : List ScheduledMessage) (reg : List SchedJob)
    (now i : Nat) (s : ScheduledMessage) (a : UpdArgs) (m : Messaging)
    (raises : Bool) : Prop :=
  ((cancel_schedule db reg i).ok = true ∧
    dbGet (cancel_schedule db reg i).db i = some { s with status := .canceled }) ∧
  ((pause_schedule db reg i).ok = true ∧
    dbGet (pause_schedule db reg i).db i = some { s with status := .paused }) ∧
  ((resume_schedule db reg now i).ok = true →
    dbGet (resume_schedule db reg now i).db i = some { s with status := .scheduled }) ∧
  ((resume_schedule db reg now i).ok = false →
    (resume_schedule db reg now i).db = db) ∧
  (∀ (db2 : List ScheduledMessage) (reg2 : List SchedJob) (r : ScheduledMessage),
    update_schedule db reg now i a = .ok db2 reg2 r → r.status = s.status) ∧
  (s.schedule_type = .once →
    (run_send_job m raises now reg s).record.status = .completed ∨
    (run_send_job m raises now reg s).record.status = .failed) ∧
  (s.schedule_type = .cron →
    (run_send_job m raises now reg s).record.status = s.status)

/-- C3 (amended): the per-operation status effects, with no status guarded as
terminal. -/
theorem c3_status_machine (db : List ScheduledMessage) (reg : List SchedJob)
    (now i : Nat) (s : ScheduledMessage) (a : UpdArgs) (m : Messaging)
    (raises : Bool) (hs : dbGet db i = some s) :
    LifecycleClaim db reg now i s a m raises := by
  refine ⟨cancel_schedule_found db reg i s hs, ?_, ?_, ?_, ?_, ?_, ?_⟩
  · constructor
    · simp [pause_schedule, hs]
    · simp only [pause_schedule, hs]
      exact dbGet_dbSet db i s _ hs rfl
  · intro hok
    rcases resume_schedule_cases db reg now i s hs with ⟨reg2, heq⟩ | heq
    · rw [heq]
      exact dbGet_dbSet db i s _ hs rfl
    · rw [heq] at hok
      simp at hok
  · intro hok
    rcases resume_schedule_cases db reg now i s hs with ⟨reg2, heq⟩ | heq
    · rw [heq] at hok
      simp at hok
    · rw [heq]
  · intro db2 reg2 r h
    exact update_schedule_status db db2 reg reg2 now i a s r hs h
  · intro ho
    by_cases hsucc : fireSuccess m s = true
    · cases raises <;> simp [run_send_job, ho, hsucc]
    · cases raises <;> simp [run_send_job, ho, hsucc]
  · intro hc
    have ho : ¬ s.schedule_type = .once := by simp [hc]
    cases raises <;> simp [run_send_job, ho]

/-- Concrete canceled record for the C3 witness (exercising that `canceled`
is not terminal either). -/
def rec3w : ScheduledMessage :=
  { id := 2, job_id := "j3w", type := .individual, schedule_type := .once,
    contact_id := some 1, phone_number := none, group_id := none,
    message := "y", run_at := some 50, cron_expression := none,
    status := .canceled, last_run_at := none }

/-- C3 witness: the amended claim at a concrete canceled record. -/
theorem c3_witness :
    dbGet [rec3w] 2 = some rec3w ∧
    LifecycleClaim [rec3w] [] 10 2 rec3w ⟨none, none, none, none⟩ mEx false :=
  ⟨rfl, c3_status_machine [rec3w] [] 10 2 rec3w ⟨none, none, none, none⟩ mEx false rfl⟩

/-- A registry in which every job has `max_instances = 1` bounds every key's
admission budget by one. -/
theorem regMaxInst_le_one (reg : List SchedJob) (h : allMaxInstOne reg = true)
    (j : String) : regMaxInst reg j ≤ 1 := by
  cases hf : reg.find? (·.id = j) with
  | none => simp [regMaxInst, hf]
  | some jb =>
      have hmem := List.mem_of_find?_eq_some hf
      have h1 := List.all_eq_true.mp h jb hmem
      simp only [decide_eq_true_eq] at h1
      simp [regMaxInst, hf, h1]

/-- The engine admission discipline preserves the per-key running bound. -/
theorem engineRun_invariant (maxInst : String → Nat) (evs : List FireEv) :
    ∀ st : List String, (∀ j, st.count j ≤ maxInst j) →
    ∀ j, (evs.foldl (engineStep maxInst) st).count j ≤ maxInst j := by
  induction evs with
  | nil => intro st h j; simpa using h j
  | cons e rest ih =>
      intro st h j
      simp only [List.foldl_cons]
      apply ih
      intro j2
      cases e with
      | arrive j0 =>
          simp only [engineStep]
          by_cases hc : st.count j0 < maxInst j0
          · rw [if_pos hc]
            by_cases hj : j2 = j0
            · subst hj
              simp only [List.count_cons_self]
              omega
            · rw [List.count_cons_of_ne hj]
              exact h j2
          · rw [if_neg hc]
            exact h j2
      | finish j0 =>
          simp only [engineStep]
          exact le_trans (List.Sublist.count_le (List.erase_sublist j0 st) j2) (h j2)

/-- The claimed single-flight discipline over a registry: at most one running
instance per key in any event sequence; an occurrence arriving while its
budget is exhausted leaves the engine state unchanged (dropped, not queued);
and both registration paths of the source produce `max_instances = 1`
registries. -/
def EngineClaim (reg : List SchedJob) : Prop :=
  (∀ (evs : List FireEv) (j : String), (engineRun (regMaxInst reg) evs).count j ≤ 1) ∧
  (∀ (st : List String) (j : String), regMaxInst reg j ≤ st.count j →
      engineStep (regMaxInst reg) st (.arrive j) = st) ∧
  (∀ s : ScheduledMessage, allMaxInstOne (addDateJob reg s) = true) ∧
  (∀ (s : ScheduledMessage) (reg2 : List SchedJob),
      addCronJobChecked reg s = .ok reg2 → allMaxInstOne reg2 = true)

/-- `add_job` with a `max_instances = 1` job keeps the registry bound. -/
theorem allMaxInstOne_addJob (reg : List SchedJob) (jb : SchedJob)
    (h : allMaxInstOne reg = true) (hjb : jb.maxInstances = 1) :
    allMaxInstOne (addJob reg jb) = true := by
  simp only [allMaxInstOne, addJob, List.all_append, Bool.and_eq_true,
    List.all_eq_true] at h ⊢
  constructor
  · intro x hx
    exact h x (List.mem_of_mem_filter hx)
  · simp [hjb]

/-- C9: every registration the source makes carries `max_instances = 1`
(`_add_date_job` and `_add_cron_job`), so under the engine's admission
discipline no two fire occurrences of the same `job_id` ever run
concurrently, and an occurrence arriving while one runs is dropped rather
than queued. -/
theorem c9_per_job_single_flight (reg : List SchedJob)
    (h : allMaxInstOne reg = true) : EngineClaim reg := by
  refine ⟨?_, ?_, ?_, ?_⟩
  · intro evs j
    exact le_trans
      (engineRun_invariant (regMaxInst reg) evs [] (by simp) j)
      (regMaxInst_le_one reg h j)
  · intro st j hcount
    simp only [engineStep]
    rw [if_neg (by omega)]
  · intro s
    exact allMaxInstOne_addJob reg _ h rfl
  · intro s reg2 hok
    unfold addCronJobChecked at hok
    cases hp : parseCronExpression (s.cron_expression.getD "") with
    | ok f =>
        rw [hp] at hok
        simp only [Except.ok.injEq] at hok
        subst hok
        exact allMaxInstOne_addJob reg _ h rfl
    | error m =>
        rw [hp] at hok
        cases hok

/-- Concrete one-job registry for the C9 witness. -/
def reg9 : List SchedJob :=
  [{ id := "j9", trigger := .date (some 5), paused := false,
     maxInstances := 1, coalesce := true, misfireGrace := some 60 }]

/-- C9 witness: the engine claim at the concrete registry. -/
theorem c9_witness : allMaxInstOne reg9 = true ∧ EngineClaim reg9 :=
  ⟨by decide, c9_per_job_single_flight reg9 (by decide)⟩

/-- C5 witness: the generic field-count clause applied to the concrete
expression `* *` (2 fields). -/
theorem c5_witness :
    (pySplit "* *").length ≠ 5 ∧
    ((schedule_message_cron [] [] "j" 1 .individual "m" "* *" none none none).2.2.isOk
        = false ∧
     (schedule_message_cron [] [] "j" 1 .individual "m" "* *" none none none).1 = [] ∧
     (schedule_message_cron [] [] "j" 1 .individual "m" "* *" none none none).2.1 = []) :=
  ⟨by decide,
    (c5_cron_field_count_validation [] [] "j" 1 .individual "m" none none none).2.2
      "* *" (by decide)⟩

end Zapi
